import Mathlib

/-!
Shallow embedding of the cumulus executions indexer (the lambda that keeps an
elasticsearch index of completed step-function executions in sync) and of the
exclusive-task lease used by `GenerateMrfTask.run`.

Modelling conventions:
- JavaScript date strings are represented by the result of `Date.parse` on
  them: `some v` for a parseable date (epoch milliseconds, possibly negative
  for pre-1970 instants), `none` for an absent or unparseable date
  (`Date.parse` yields `NaN` there, and every `<` comparison with `NaN` is
  false).
- The elasticsearch and step-function services are modelled as environments:
  deterministic functions from the request to the response observed during one
  sync cycle.
- Effects (bulk writes issued, watermark writes issued) are returned
  explicitly so that theorems can talk about them.
-/

/-- A JavaScript number that may be `NaN`: `none` models `NaN`. -/
abbrev JsNum := Option Int

/-- JavaScript subtraction on possibly-`NaN` numbers: `NaN` propagates. -/
def jsSub : JsNum → JsNum → JsNum
  | some a, some b => some (a - b)
  | _, _ => none

/-- JavaScript coercion of `null` in arithmetic: `null - x === 0 - x`. -/
def jsNullToZero : Option Int → Int
  | none => 0
  | some v => v

/-- Truthiness test of a possibly-absent JavaScript string as used by
`if (!nextToken)`: `undefined`/`null` and the empty string are falsy. -/
def jsStrFalsy : Option String → Bool
  | none => true
  | some s => s == ""

/-- One execution record as returned by `stepFunctions().listExecutions`.
The `startDate` and `stopDate` fields hold the `Date.parse` image of the raw
date strings (see the module conventions). -/
structure Execution where
  name : String
  status : String
  startDate : JsNum
  stopDate : JsNum
deriving DecidableEq, Repr

/-- Result of `parseExecutionName` (imported from `execution-name-parser`,
which is outside this excerpt); the indexer only forwards its two fields. -/
structure ParsedName where
  collectionId : String
  granuleId : String
deriving DecidableEq, Repr

/-- The document built by `executionToDoc`. -/
structure ExecutionDoc where
  _id : String
  workflow_id : String
  collection_id : String
  granule_id : String
  start_date : JsNum
  stop_date : JsNum
  elapsed_ms : JsNum
  success : Bool
deriving DecidableEq, Repr

/-- Converts an execution to a document to index in elasticsearch
(`executionToDoc`).  The name parser is passed as a parameter because its
implementation lives outside this excerpt. -/
def executionToDoc (parseExecutionName : String → ParsedName) (workflowId : String)
    (e : Execution) : ExecutionDoc :=
  let parsed := parseExecutionName e.name
  let startDateEpoch := e.startDate
  let stopDateEpoch := e.stopDate
  { _id := e.name
    workflow_id := workflowId
    collection_id := parsed.collectionId
    granule_id := parsed.granuleId
    start_date := startDateEpoch
    stop_date := stopDateEpoch
    elapsed_ms := jsSub stopDateEpoch startDateEpoch
    success := e.status == "SUCCEEDED" }

/-- The per-document source sent in a bulk request: the doc with `_id`
deleted (`delete indexDoc._id` in `docsToBulk`). -/
structure IndexedDoc where
  workflow_id : String
  collection_id : String
  granule_id : String
  start_date : JsNum
  stop_date : JsNum
  elapsed_ms : JsNum
  success : Bool
deriving DecidableEq, Repr

/-- One entry of the body of a bulk request built by `docsToBulk`: either an
index action header or the document source that follows it. -/
inductive BulkEntry where
  | action (idx typ id : String)
  | source (doc : IndexedDoc)
deriving DecidableEq, Repr

/-- Removes the `_id` field from a document, as `docsToBulk` does before
pushing the document source. -/
def stripId (d : ExecutionDoc) : IndexedDoc :=
  { workflow_id := d.workflow_id
    collection_id := d.collection_id
    granule_id := d.granule_id
    start_date := d.start_date
    stop_date := d.stop_date
    elapsed_ms := d.elapsed_ms
    success := d.success }

/-- Takes a bunch of execution documents and converts them into a bulk
indexing request (`docsToBulk`). -/
def docsToBulk (docs : List ExecutionDoc) : List BulkEntry :=
  docs.foldr
    (fun doc acc => .action "executions" "execution" doc._id :: .source (stripId doc) :: acc)
    []

/-- The elasticsearch environment for one cycle: the `errors` flag that a bulk
request would come back with (`true` models any response with
`errors !== false`). -/
structure EsEnv where
  bulkErrors : List BulkEntry → Bool

/-- The documents built inside `indexExecutions`: non-`RUNNING` executions
converted by `executionToDoc` (lines 193-194 of the source). -/
def executionDocs (parseExecutionName : String → ParsedName) (workflowId : String)
    (executions : List Execution) : List ExecutionDoc :=
  (executions.filter (fun e => e.status ≠ "RUNNING")).map
    (executionToDoc parseExecutionName workflowId)

/-- Indexes the executions in elasticsearch (`indexExecutions`).  Returns the
number indexed together with the list of bulk request bodies issued; throwing
(`Failed saving to elasticsearch`) is modelled by `Except.error`. -/
def indexExecutions (es : EsEnv) (parseExecutionName : String → ParsedName)
    (workflowId : String) (executions : List Execution) :
    Except String (Nat × List (List BulkEntry)) :=
  let docs := executionDocs parseExecutionName workflowId executions
  let numIndexed := docs.length
  if 0 < numIndexed then
    let bulkArgs := docsToBulk docs
    if es.bulkErrors bulkArgs then .error "Failed saving to elasticsearch"
    else .ok (numIndexed, [bulkArgs])
  else .ok (numIndexed, [])

/-- The hits of the `executions-meta` search in `getLastIndexedDate`: the
stored (already parsed) `last_indexed_date` values, best hit first. -/
structure MetaHits where
  hits : List Int
deriving DecidableEq, Repr

/-- Returns the date of the last time indexing was run (`getLastIndexedDate`):
the first hit's stored date, or `null` when the meta index holds no record. -/
def getLastIndexedDate (resp : MetaHits) : Option Int :=
  match resp.hits with
  | [] => none
  | d :: _ => some d

/-- The number of milliseconds before the last time we indexed that we'll
continue to find and index executions (`LAST_INDEXED_THRESHOLD`). -/
def LAST_INDEXED_THRESHOLD : Int := 5 * 60 * 1000

/-- Returns true if the execution ended before the last indexed date minus the
threshold (`executionBeforeLastIndexed`).  A `null` last-indexed date coerces
to `0` in the subtraction, and an unparseable stop date is `NaN`, whose
comparisons are all false. -/
def executionBeforeLastIndexed (lastIndexedDate : Option Int) (e : Execution) : Bool :=
  match e.stopDate with
  | none => false
  | some s => decide (s < jsNullToZero lastIndexedDate - LAST_INDEXED_THRESHOLD)

/-- One workflow entry of the collection config (`_workflow_meta`). -/
structure Workflow where
  id : String
  arn : String
deriving DecidableEq, Repr

/-- One page returned by `stepFunctions().listExecutions`. -/
structure ListExecutionsResp where
  executions : List Execution
  nextToken : Option String
deriving DecidableEq, Repr

/-- The step-function environment for one cycle: the page returned for a given
state machine arn and continuation token (`null` for the first page). -/
structure SfnEnv where
  listExecutions : String → Option String → ListExecutionsResp

/-- What one partition's `while (!done)` loop did: the accumulated
`totalIndexed`, the number of `listExecutions` page fetches performed, and the
bulk request bodies issued, in order. -/
structure LoopResult where
  totalIndexed : Nat
  fetches : Nat
  bulkCalls : List (List BulkEntry)
deriving DecidableEq, Repr

/-- The per-workflow `while (!done)` paging loop inside
`findAndIndexExecutions` (lines 236-271).  `totalIndexed`, `nextToken` are the
loop variables; `fetches` and `bulkCalls` accumulate the observable effects.
Each iteration fetches a page, indexes it, and stops when nothing was indexed,
when the cap is reached, when no (truthy) continuation token came back, or
when an execution older than the last-indexed cutoff was seen. -/
def workflowLoop (sfn : SfnEnv) (es : EsEnv) (parseExecutionName : String → ParsedName)
    (lastIndexedDate : Option Int) (workflowId arn : String) (maxIndexExecutions : Nat)
    (totalIndexed : Nat) (nextToken : Option String) (fetches : Nat)
    (bulkCalls : List (List BulkEntry)) : Except String LoopResult :=
  let resp := sfn.listExecutions arn nextToken
  match indexExecutions es parseExecutionName workflowId resp.executions with
  | .error msg => .error msg
  | .ok (numIndexed, newBulks) =>
    if hpos : 0 < numIndexed then
      if hstop : maxIndexExecutions ≤ totalIndexed + numIndexed
          ∨ jsStrFalsy resp.nextToken = true
          ∨ 0 < (resp.executions.filter
                  (fun e => executionBeforeLastIndexed lastIndexedDate e)).length then
        .ok ⟨totalIndexed + numIndexed, fetches + 1, bulkCalls ++ newBulks⟩
      else
        workflowLoop sfn es parseExecutionName lastIndexedDate workflowId arn
          maxIndexExecutions (totalIndexed + numIndexed) resp.nextToken (fetches + 1)
          (bulkCalls ++ newBulks)
    else
      .ok ⟨totalIndexed, fetches + 1, bulkCalls ++ newBulks⟩
termination_by maxIndexExecutions - totalIndexed
decreasing_by
  have h1 : ¬ (maxIndexExecutions ≤ totalIndexed + numIndexed) := fun hc => hstop (Or.inl hc)
  have h2 : totalIndexed + numIndexed < maxIndexExecutions := Nat.lt_of_not_le h1
  have h3 : totalIndexed < totalIndexed + numIndexed := Nat.lt_add_of_pos_right hpos
  exact Nat.sub_lt_sub_left (Nat.lt_trans h3 h2) h3

/-- One partition's work in `findAndIndexExecutions`: the paging loop started
with `totalIndexed = 0`, a `null` token, and no effects yet. -/
def findWorkflowExecutions (sfn : SfnEnv) (es : EsEnv)
    (parseExecutionName : String → ParsedName) (lastIndexedDate : Option Int)
    (w : Workflow) (maxIndexExecutions : Nat) : Except String LoopResult :=
  workflowLoop sfn es parseExecutionName lastIndexedDate w.id w.arn maxIndexExecutions
    0 none 0 []

/-- The first rejection among the per-partition promises, as `Promise.all`
would surface it. -/
def firstErrorMsg (rs : List (Except String LoopResult)) : Option String :=
  rs.findSome? fun r => match r with | .error m => some m | .ok _ => none

/-- The observable outcome of one `findAndIndexExecutions` cycle. -/
structure CycleOutcome where
  /-- what each concurrently started partition promise settled with -/
  partitionResults : List (Except String LoopResult)
  /-- what the `findAndIndexExecutions` promise itself settles with -/
  outcome : Except String Unit
  /-- the arguments of every `saveIndexedDate` call made, in order -/
  saveCalls : List Int
deriving Repr

/-- The main flow (`findAndIndexExecutions`, lines 219-277): read the
watermark, capture `indexingStartTime` (a parameter here, captured by the
caller before any page is fetched), run every workflow's paging loop, and —
only when every partition succeeded (`Promise.all`) — call `saveIndexedDate`
with the captured start time.  Partition promises all run to completion or
failure independently; a rejection makes the cycle reject without the
watermark write. -/
def findAndIndexExecutions (sfn : SfnEnv) (es : EsEnv)
    (parseExecutionName : String → ParsedName) (metaStore : MetaHits)
    (indexingStartTime : Int) (workflows : List Workflow)
    (maxIndexExecutions : Nat) : CycleOutcome :=
  let lastIndexedDate := getLastIndexedDate metaStore
  let partitionResults := workflows.map fun w =>
    findWorkflowExecutions sfn es parseExecutionName lastIndexedDate w maxIndexExecutions
  match firstErrorMsg partitionResults with
  | some m => ⟨partitionResults, .error m, []⟩
  | none => ⟨partitionResults, .ok (), [indexingStartTime]⟩

/-- The `executions-meta` store after a cycle: `saveIndexedDate` overwrites
the single `executionMeta-id` record, so the store holds the last written
date, or is unchanged when nothing was written. -/
def metaAfter (store : MetaHits) (o : CycleOutcome) : MetaHits :=
  match o.saveCalls.getLast? with
  | some d => ⟨[d]⟩
  | none => store

/-- The maximum number of executions for a single workflow before giving up
(`MAX_EXECUTIONS_TO_INDEX`). -/
def MAX_EXECUTIONS_TO_INDEX : Nat := 50000

/-- What the lambda handler's callback is invoked with. -/
inductive HandlerResult where
  | success (msg : String)
  | failure (errMsg : String)
deriving DecidableEq, Repr

/-- The lambda handler (`handler`, lines 292-318): runs
`findAndIndexExecutions` twice (with a sleep in between, irrelevant here),
reporting the first thrown error message through the callback, and otherwise
the fixed completion string.  `t1` and `t2` are the two cycles' captured start
times; the second cycle reads the meta store as left by the first. -/
def handler (sfn : SfnEnv) (es : EsEnv) (parseExecutionName : String → ParsedName)
    (metaStore : MetaHits) (t1 t2 : Int) (workflows : List Workflow) : HandlerResult :=
  let c1 := findAndIndexExecutions sfn es parseExecutionName metaStore t1 workflows
    MAX_EXECUTIONS_TO_INDEX
  match c1.outcome with
  | .error m => .failure m
  | .ok _ =>
    let c2 := findAndIndexExecutions sfn es parseExecutionName (metaAfter metaStore c1) t2
      workflows MAX_EXECUTIONS_TO_INDEX
    match c2.outcome with
    | .error m => .failure m
    | .ok _ => .success "Elasticsearch indexing complete"

/-!
The environments above model every page fetch as resolving.  The source's
`listExecutions` call is awaited, so a rejected promise (the spec's
`SourceUnavailable`) rejects the partition promise just like a bulk-write
error does.  The definitions below carry that error path explicitly;
`workflowLoopE_ofTotal`, `findAndIndexExecutionsE_ofTotal` and
`handlerE_ofTotal` prove that on environments whose fetches all resolve they
coincide with the fetch-total definitions above.
-/

/-- The step-function environment with its error path: for a given state
machine arn and continuation token, the awaited `listExecutions` promise
either resolves with a page or rejects with an error. -/
structure SfnEnvE where
  listExecutions : String → Option String → Except String ListExecutionsResp

/-- A fetch-total environment viewed as one all of whose fetches resolve. -/
def SfnEnv.toE (sfn : SfnEnv) : SfnEnvE :=
  ⟨fun arn tok => .ok (sfn.listExecutions arn tok)⟩

/-- The per-workflow paging loop with the page-fetch error path: identical to
`workflowLoop` except that a rejected `listExecutions` promise rejects the
partition promise with that error (`await` rethrows it). -/
def workflowLoopE (sfn : SfnEnvE) (es : EsEnv) (parseExecutionName : String → ParsedName)
    (lastIndexedDate : Option Int) (workflowId arn : String) (maxIndexExecutions : Nat)
    (totalIndexed : Nat) (nextToken : Option String) (fetches : Nat)
    (bulkCalls : List (List BulkEntry)) : Except String LoopResult :=
  match sfn.listExecutions arn nextToken with
  | .error msg => .error msg
  | .ok resp =>
    match indexExecutions es parseExecutionName workflowId resp.executions with
    | .error msg => .error msg
    | .ok (numIndexed, newBulks) =>
      if hpos : 0 < numIndexed then
        if hstop : maxIndexExecutions ≤ totalIndexed + numIndexed
            ∨ jsStrFalsy resp.nextToken = true
            ∨ 0 < (resp.executions.filter
                    (fun e => executionBeforeLastIndexed lastIndexedDate e)).length then
          .ok ⟨totalIndexed + numIndexed, fetches + 1, bulkCalls ++ newBulks⟩
        else
          workflowLoopE sfn es parseExecutionName lastIndexedDate workflowId arn
            maxIndexExecutions (totalIndexed + numIndexed) resp.nextToken (fetches + 1)
            (bulkCalls ++ newBulks)
      else
        .ok ⟨totalIndexed, fetches + 1, bulkCalls ++ newBulks⟩
termination_by maxIndexExecutions - totalIndexed
decreasing_by
  have h1 : ¬ (maxIndexExecutions ≤ totalIndexed + numIndexed) := fun hc => hstop (Or.inl hc)
  have h2 : totalIndexed + numIndexed < maxIndexExecutions := Nat.lt_of_not_le h1
  have h3 : totalIndexed < totalIndexed + numIndexed := Nat.lt_add_of_pos_right hpos
  exact Nat.sub_lt_sub_left (Nat.lt_trans h3 h2) h3

/-- One partition's work, fetch error path included. -/
def findWorkflowExecutionsE (sfn : SfnEnvE) (es : EsEnv)
    (parseExecutionName : String → ParsedName) (lastIndexedDate : Option Int)
    (w : Workflow) (maxIndexExecutions : Nat) : Except String LoopResult :=
  workflowLoopE sfn es parseExecutionName lastIndexedDate w.id w.arn maxIndexExecutions
    0 none 0 []

/-- The main flow over an environment whose page fetches may reject: as
`findAndIndexExecutions`, with a partition rejection coming from either a
page fetch or a bulk write making the cycle reject, without the watermark
write. -/
def findAndIndexExecutionsE (sfn : SfnEnvE) (es : EsEnv)
    (parseExecutionName : String → ParsedName) (metaStore : MetaHits)
    (indexingStartTime : Int) (workflows : List Workflow)
    (maxIndexExecutions : Nat) : CycleOutcome :=
  let lastIndexedDate := getLastIndexedDate metaStore
  let partitionResults := workflows.map fun w =>
    findWorkflowExecutionsE sfn es parseExecutionName lastIndexedDate w maxIndexExecutions
  match firstErrorMsg partitionResults with
  | some m => ⟨partitionResults, .error m, []⟩
  | none => ⟨partitionResults, .ok (), [indexingStartTime]⟩

/-- The lambda handler over the environment with the fetch error path. -/
def handlerE (sfn : SfnEnvE) (es : EsEnv) (parseExecutionName : String → ParsedName)
    (metaStore : MetaHits) (t1 t2 : Int) (workflows : List Workflow) : HandlerResult :=
  let c1 := findAndIndexExecutionsE sfn es parseExecutionName metaStore t1 workflows
    MAX_EXECUTIONS_TO_INDEX
  match c1.outcome with
  | .error m => .failure m
  | .ok _ =>
    let c2 := findAndIndexExecutionsE sfn es parseExecutionName (metaAfter metaStore c1) t2
      workflows MAX_EXECUTIONS_TO_INDEX
    match c2.outcome with
    | .error m => .failure m
    | .ok _ => .success "Elasticsearch indexing complete"

/-!
Exclusive-task lease.  `GenerateMrfTask.run` calls
`this.exclusive(this.transactionKey, LOCK_TIMEOUT_MS, this.runExclusive...)`;
the implementation of `exclusive` lives in `gitc-common/task`, which is not
part of this excerpt, so it is modelled from the spec below.
-/

/-- Modelled from the spec: the lease store state backing `withLease` (the
`exclusive` helper of `gitc-common/task`, absent from this excerpt) — for each
resource key, the expiration instant of the currently recorded lease, if any. -/
structure LeaseState where
  leases : String → Option Int

/-- Modelled from the spec: whether an unexpired lease exists for `key` at
instant `now`. -/
def leaseActive (st : LeaseState) (key : String) (now : Int) : Bool :=
  match st.leases key with
  | none => false
  | some expiresAt => decide (now < expiresAt)

/-- Modelled from the spec: the lease store's atomic conditional write — the
acquire succeeds exactly when no unexpired lease exists for `key`, recording a
lease that expires `ttl` milliseconds from `now`. -/
def tryAcquire (st : LeaseState) (key : String) (now ttl : Int) : Bool × LeaseState :=
  if leaseActive st key now then (false, st)
  else (true, ⟨fun k => if k = key then some (now + ttl) else st.leases k⟩)

/-- Modelled from the spec: releasing the lease for `key`. -/
def releaseLease (st : LeaseState) (key : String) : LeaseState :=
  ⟨fun k => if k = key then none else st.leases k⟩

/-- What a `withLease` call returns: `busy` when the lease was held, otherwise
the wrapped function's own result (success or failure). -/
inductive LeaseOutcome (α : Type) where
  | busy
  | ran (result : Except String α)

/-- Modelled from the spec: `withLease(key, timeout, fn)` — acquires the lease
(atomic conditional write), runs `fn`, and releases the lease on completion
through every exit path, success or failure of `fn` alike; returns `busy`
immediately, with the store untouched, when acquisition fails.  `fn` is
modelled by the `Except` value it settles with. -/
def withLease {α : Type} (st : LeaseState) (key : String) (now ttl : Int)
    (fn : Except String α) : LeaseOutcome α × LeaseState :=
  let acq := tryAcquire st key now ttl
  if acq.1 then (.ran fn, releaseLease acq.2 key)
  else (.busy, st)

/-- Lock timeout of the MRF generation task (`LOCK_TIMEOUT_MS`, 20 minutes). -/
def LOCK_TIMEOUT_MS : Int := 20 * 60 * 1000

/-- `GenerateMrfTask.run`: runs `runExclusive` under the task's transaction
key lease with the 20-minute timeout. -/
def GenerateMrfTask.run {α : Type} (st : LeaseState) (transactionKey : String)
    (now : Int) (runExclusive : Except String α) : LeaseOutcome α × LeaseState :=
  withLease st transactionKey now LOCK_TIMEOUT_MS runExclusive

/-!
Concrete environments used to instantiate the theorems below on explicit
inputs.
-/

/-- A terminal successful execution. -/
def eA : Execution := ⟨"ca__ga", "SUCCEEDED", some 1000, some 2000⟩

/-- A terminal failed execution. -/
def eB : Execution := ⟨"cb__gb", "FAILED", some 1000, some 3000⟩

/-- A still-running execution. -/
def eR : Execution := ⟨"cr__gr", "RUNNING", some 1000, none⟩

/-- A terminal execution whose stop date (100 ms) is far older than the
sample watermark used below. -/
def eOld : Execution := ⟨"co__go", "SUCCEEDED", some 50, some 100⟩

/-- A concrete name parser. -/
def parseW : String → ParsedName := fun n => ⟨n ++ "-c", n ++ "-g"⟩

/-- A source with a single final page holding `eA`. -/
def sfnOne : SfnEnv := ⟨fun _ _ => ⟨[eA], none⟩⟩

/-- A source whose partition `a` yields `eA` and whose other partitions yield
`eB`, one final page each. -/
def sfnW2 : SfnEnv := ⟨fun arn _ => if arn = "a" then ⟨[eA], none⟩ else ⟨[eB], none⟩⟩

/-- A source (fetch error path included) whose partition `a` resolves with a
single final page holding `eA` and whose other partitions' page fetches
reject. -/
def sfnF : SfnEnvE := ⟨fun arn _ =>
  if arn = "a" then .ok ⟨[eA], none⟩ else .error "Network error"⟩

/-- A source with a single page holding only the old execution `eOld` and
still advertising a continuation token. -/
def sfnOld : SfnEnv := ⟨fun _ _ => ⟨[eOld], some "t"⟩⟩

/-- A source with a single page holding only a `RUNNING` execution and
still advertising a continuation token. -/
def sfnR : SfnEnv := ⟨fun _ _ => ⟨[eR], some "t"⟩⟩

/-- A source with three pages of 100, 100 and 40 terminal executions, the
first two returning continuation tokens. -/
def sfn3 : SfnEnv := ⟨fun _ tok =>
  match tok with
  | none => ⟨List.replicate 100 eA, some "t1"⟩
  | some "t1" => ⟨List.replicate 100 eA, some "t2"⟩
  | some "t2" => ⟨List.replicate 40 eA, none⟩
  | _ => ⟨[], none⟩⟩

/-- An index that accepts every bulk request. -/
def esOk : EsEnv := ⟨fun _ => false⟩

/-- An index that reports errors on every bulk request. -/
def esBad : EsEnv := ⟨fun _ => true⟩

/-- An index that reports errors exactly on bulk requests touching the
document id of `eB`. -/
def esW2 : EsEnv := ⟨fun args => args.any fun entry =>
  match entry with
  | .action _ _ i => i == "cb__gb"
  | .source _ => false⟩

/-- The two partitions used in the partial-failure scenarios: `B` is the one
whose bulk writes fail under `esW2`. -/
def wfsW2 : List Workflow := [⟨"A", "a"⟩, ⟨"B", "b"⟩]

/-- An empty lease store. -/
def st0W : LeaseState := ⟨fun _ => none⟩

/-!
Helper lemmas: one lemma per way an iteration of the paging loop can go, a
bound on the number of page fetches, and small facts about the auxiliary
definitions.  These are shared by the claim theorems below.
-/

theorem workflowLoop_error (sfn : SfnEnv) (es : EsEnv) (p : String → ParsedName)
    (lid : Option Int) (wid arn : String) (mx tot : Nat) (tok : Option String)
    (f : Nat) (b : List (List BulkEntry)) (msg : String)
    (h : indexExecutions es p wid (sfn.listExecutions arn tok).executions = .error msg) :
    workflowLoop sfn es p lid wid arn mx tot tok f b = .error msg := by
  rw [workflowLoop]
  simp [h]

theorem workflowLoop_zero (sfn : SfnEnv) (es : EsEnv) (p : String → ParsedName)
    (lid : Option Int) (wid arn : String) (mx tot : Nat) (tok : Option String)
    (f : Nat) (b : List (List BulkEntry)) (nb : List (List BulkEntry))
    (h : indexExecutions es p wid (sfn.listExecutions arn tok).executions = .ok (0, nb)) :
    workflowLoop sfn es p lid wid arn mx tot tok f b = .ok ⟨tot, f + 1, b ++ nb⟩ := by
  rw [workflowLoop]
  simp [h]

theorem workflowLoop_stop (sfn : SfnEnv) (es : EsEnv) (p : String → ParsedName)
    (lid : Option Int) (wid arn : String) (mx tot : Nat) (tok : Option String)
    (f : Nat) (b : List (List BulkEntry)) (n : Nat) (nb : List (List BulkEntry))
    (h : indexExecutions es p wid (sfn.listExecutions arn tok).executions = .ok (n, nb))
    (hn : 0 < n)
    (hs : mx ≤ tot + n ∨ jsStrFalsy (sfn.listExecutions arn tok).nextToken = true
      ∨ 0 < ((sfn.listExecutions arn tok).executions.filter
              (fun e => executionBeforeLastIndexed lid e)).length) :
    workflowLoop sfn es p lid wid arn mx tot tok f b = .ok ⟨tot + n, f + 1, b ++ nb⟩ := by
  rw [workflowLoop]
  simp [h, hn, hs]

theorem workflowLoop_continue (sfn : SfnEnv) (es : EsEnv) (p : String → ParsedName)
    (lid : Option Int) (wid arn : String) (mx tot : Nat) (tok : Option String)
    (f : Nat) (b : List (List BulkEntry)) (n : Nat) (nb : List (List BulkEntry))
    (h : indexExecutions es p wid (sfn.listExecutions arn tok).executions = .ok (n, nb))
    (hn : 0 < n)
    (hs : ¬ (mx ≤ tot + n ∨ jsStrFalsy (sfn.listExecutions arn tok).nextToken = true
      ∨ 0 < ((sfn.listExecutions arn tok).executions.filter
              (fun e => executionBeforeLastIndexed lid e)).length)) :
    workflowLoop sfn es p lid wid arn mx tot tok f b
      = workflowLoop sfn es p lid wid arn mx (tot + n)
          (sfn.listExecutions arn tok).nextToken (f + 1) (b ++ nb) := by
  rw [workflowLoop]
  simp [h, hn, hs]

theorem workflowLoop_fetches_le (sfn : SfnEnv) (es : EsEnv) (p : String → ParsedName)
    (lid : Option Int) (wid arn : String) (mx : Nat) :
    ∀ (tot : Nat) (tok : Option String) (f : Nat) (b : List (List BulkEntry))
      (r : LoopResult), workflowLoop sfn es p lid wid arn mx tot tok f b = .ok r →
      r.fetches ≤ f + (mx - tot) + 1 := by
  intro tot tok f b
  induction tot, tok, f, b using workflowLoop.induct sfn es p lid wid arn mx with
  | case1 tot tok f b resp msg h =>
    intro r hr
    have hresp : resp = sfn.listExecutions arn tok := rfl
    rw [hresp] at h
    rw [workflowLoop_error sfn es p lid wid arn mx tot tok f b msg h] at hr
    cases hr
  | case2 tot tok f b resp n nb h hn hs =>
    intro r hr
    have hresp : resp = sfn.listExecutions arn tok := rfl
    rw [hresp] at h hs
    rw [workflowLoop_stop sfn es p lid wid arn mx tot tok f b n nb h hn hs] at hr
    cases hr
    simp
  | case3 tot tok f b resp n nb h hn hs ih =>
    intro r hr
    have hresp : resp = sfn.listExecutions arn tok := rfl
    rw [hresp] at h hs
    rw [workflowLoop_continue sfn es p lid wid arn mx tot tok f b n nb h hn hs] at hr
    have hlt : tot + n < mx := Nat.lt_of_not_le (fun hc => hs (Or.inl hc))
    have hb := ih r hr
    omega
  | case4 tot tok f b resp n nb h hn =>
    intro r hr
    have hn0 : n = 0 := Nat.eq_zero_of_not_pos hn
    subst hn0
    have hresp : resp = sfn.listExecutions arn tok := rfl
    rw [hresp] at h
    rw [workflowLoop_zero sfn es p lid wid arn mx tot tok f b nb h] at hr
    cases hr
    simp

theorem executionDocs_length_of_terminal (p : String → ParsedName) (wid : String)
    (execs : List Execution) (h : ∀ e ∈ execs, e.status ≠ "RUNNING") :
    (executionDocs p wid execs).length = execs.length := by
  unfold executionDocs
  rw [List.filter_eq_self.mpr (by simpa using h)]
  simp

theorem indexExecutions_ok_of_terminal (es : EsEnv) (p : String → ParsedName)
    (wid : String) (execs : List Execution)
    (hterm : ∀ e ∈ execs, e.status ≠ "RUNNING") (hpos : 0 < execs.length)
    (hbulk : es.bulkErrors (docsToBulk (executionDocs p wid execs)) = false) :
    indexExecutions es p wid execs
      = .ok (execs.length, [docsToBulk (executionDocs p wid execs)]) := by
  unfold indexExecutions
  simp [executionDocs_length_of_terminal p wid execs hterm, hpos, hbulk]

theorem indexExecutions_error_of_bulkErrors (es : EsEnv) (p : String → ParsedName)
    (wid : String) (execs : List Execution)
    (hne : executionDocs p wid execs ≠ [])
    (hbulk : es.bulkErrors (docsToBulk (executionDocs p wid execs)) = true) :
    indexExecutions es p wid execs = .error "Failed saving to elasticsearch" := by
  unfold indexExecutions
  simp [List.length_pos.mpr hne, hbulk]

theorem indexExecutions_zero_of_filter_nil (es : EsEnv) (p : String → ParsedName)
    (wid : String) (execs : List Execution)
    (hnil : execs.filter (fun e => e.status ≠ "RUNNING") = []) :
    indexExecutions es p wid execs = .ok (0, []) := by
  unfold indexExecutions executionDocs
  rw [hnil]
  simp

theorem filter_before_length_pos (lid : Option Int) (execs : List Execution)
    (e : Execution) (he : e ∈ execs) (hp : executionBeforeLastIndexed lid e = true) :
    0 < (execs.filter (fun e => executionBeforeLastIndexed lid e)).length := by
  have : e ∈ execs.filter (fun e => executionBeforeLastIndexed lid e) :=
    List.mem_filter.mpr ⟨he, hp⟩
  exact List.length_pos.mpr (List.ne_nil_of_mem this)

theorem filter_before_nil (lid : Option Int) (execs : List Execution)
    (h : ∀ e ∈ execs, executionBeforeLastIndexed lid e = false) :
    execs.filter (fun e => executionBeforeLastIndexed lid e) = [] := by
  apply List.filter_eq_nil_iff.mpr
  intro e he
  simp [h e he]

theorem firstErrorMsg_eq_none_iff (rs : List (Except String LoopResult)) :
    firstErrorMsg rs = none ↔ ∀ r ∈ rs, ∀ m, r ≠ .error m := by
  unfold firstErrorMsg
  rw [List.findSome?_eq_none_iff]
  constructor
  · intro h r hr m hm
    have := h r hr
    rw [hm] at this
    simp at this
  · intro h r hr
    cases r with
    | error m => exact absurd rfl (h _ hr m)
    | ok v => rfl

theorem cycle_partitionResults (sfn : SfnEnv) (es : EsEnv)
    (p : String → ParsedName) (meta : MetaHits) (t : Int) (wfs : List Workflow)
    (mx : Nat) :
    (findAndIndexExecutions sfn es p meta t wfs mx).partitionResults
      = wfs.map (fun w => findWorkflowExecutions sfn es p (getLastIndexedDate meta) w mx) := by
  unfold findAndIndexExecutions
  cases hfe : firstErrorMsg
    (wfs.map fun w => findWorkflowExecutions sfn es p (getLastIndexedDate meta) w mx) <;>
    simp [hfe]

theorem cycle_saveCalls_eq (sfn : SfnEnv) (es : EsEnv)
    (p : String → ParsedName) (meta : MetaHits) (t : Int) (wfs : List Workflow)
    (mx : Nat) :
    (findAndIndexExecutions sfn es p meta t wfs mx).saveCalls
      = match firstErrorMsg (wfs.map fun w =>
          findWorkflowExecutions sfn es p (getLastIndexedDate meta) w mx) with
        | some _ => []
        | none => [t] := by
  unfold findAndIndexExecutions
  cases hfe : firstErrorMsg
    (wfs.map fun w => findWorkflowExecutions sfn es p (getLastIndexedDate meta) w mx) <;>
    simp [hfe]

theorem cycle_outcome_eq (sfn : SfnEnv) (es : EsEnv)
    (p : String → ParsedName) (meta : MetaHits) (t : Int) (wfs : List Workflow)
    (mx : Nat) :
    (findAndIndexExecutions sfn es p meta t wfs mx).outcome
      = match firstErrorMsg (wfs.map fun w =>
          findWorkflowExecutions sfn es p (getLastIndexedDate meta) w mx) with
        | some m => .error m
        | none => .ok () := by
  unfold findAndIndexExecutions
  cases hfe : firstErrorMsg
    (wfs.map fun w => findWorkflowExecutions sfn es p (getLastIndexedDate meta) w mx) <;>
    simp [hfe]

theorem cycle_saveCalls_of_error (sfn : SfnEnv) (es : EsEnv)
    (p : String → ParsedName) (meta : MetaHits) (t : Int) (wfs : List Workflow)
    (mx : Nat) (m : String)
    (hmem : Except.error m ∈ (findAndIndexExecutions sfn es p meta t wfs mx).partitionResults) :
    (findAndIndexExecutions sfn es p meta t wfs mx).saveCalls = [] := by
  rw [cycle_partitionResults] at hmem
  rw [cycle_saveCalls_eq]
  cases hfe : firstErrorMsg
    (wfs.map fun w => findWorkflowExecutions sfn es p (getLastIndexedDate meta) w mx) with
  | none => exact absurd rfl ((firstErrorMsg_eq_none_iff _).mp hfe _ hmem m)
  | some m2 => rfl

theorem cycle_saveCalls_of_all_ok (sfn : SfnEnv) (es : EsEnv)
    (p : String → ParsedName) (meta : MetaHits) (t : Int) (wfs : List Workflow)
    (mx : Nat)
    (hall : ∀ r ∈ (findAndIndexExecutions sfn es p meta t wfs mx).partitionResults,
      ∀ m, r ≠ .error m) :
    (findAndIndexExecutions sfn es p meta t wfs mx).saveCalls = [t] := by
  rw [cycle_partitionResults] at hall
  rw [cycle_saveCalls_eq]
  cases hfe : firstErrorMsg
    (wfs.map fun w => findWorkflowExecutions sfn es p (getLastIndexedDate meta) w mx) with
  | none => rfl
  | some m2 =>
    obtain ⟨r, hr, hfr⟩ := List.exists_of_findSome?_eq_some hfe
    cases r with
    | error m3 => exact absurd rfl (hall _ hr m3)
    | ok v => simp at hfr

theorem cycle_saveCalls_of_outcome_ok (sfn : SfnEnv) (es : EsEnv)
    (p : String → ParsedName) (meta : MetaHits) (t : Int) (wfs : List Workflow)
    (mx : Nat)
    (hok : (findAndIndexExecutions sfn es p meta t wfs mx).outcome = .ok ()) :
    (findAndIndexExecutions sfn es p meta t wfs mx).saveCalls = [t] := by
  rw [cycle_outcome_eq] at hok
  rw [cycle_saveCalls_eq]
  cases hfe : firstErrorMsg
    (wfs.map fun w => findWorkflowExecutions sfn es p (getLastIndexedDate meta) w mx) with
  | none => rfl
  | some m2 => simp [hfe] at hok

theorem workflowLoopE_fetch_error (sfn : SfnEnvE) (es : EsEnv)
    (p : String → ParsedName) (lid : Option Int) (wid arn : String) (mx tot : Nat)
    (tok : Option String) (f : Nat) (b : List (List BulkEntry)) (msg : String)
    (h : sfn.listExecutions arn tok = .error msg) :
    workflowLoopE sfn es p lid wid arn mx tot tok f b = .error msg := by
  rw [workflowLoopE]
  simp [h]

theorem workflowLoopE_error (sfn : SfnEnvE) (es : EsEnv) (p : String → ParsedName)
    (lid : Option Int) (wid arn : String) (mx tot : Nat) (tok : Option String)
    (f : Nat) (b : List (List BulkEntry)) (resp : ListExecutionsResp) (msg : String)
    (hf : sfn.listExecutions arn tok = .ok resp)
    (h : indexExecutions es p wid resp.executions = .error msg) :
    workflowLoopE sfn es p lid wid arn mx tot tok f b = .error msg := by
  rw [workflowLoopE]
  simp [hf, h]

theorem workflowLoopE_zero (sfn : SfnEnvE) (es : EsEnv) (p : String → ParsedName)
    (lid : Option Int) (wid arn : String) (mx tot : Nat) (tok : Option String)
    (f : Nat) (b : List (List BulkEntry)) (resp : ListExecutionsResp)
    (nb : List (List BulkEntry))
    (hf : sfn.listExecutions arn tok = .ok resp)
    (h : indexExecutions es p wid resp.executions = .ok (0, nb)) :
    workflowLoopE sfn es p lid wid arn mx tot tok f b = .ok ⟨tot, f + 1, b ++ nb⟩ := by
  rw [workflowLoopE]
  simp [hf, h]

theorem workflowLoopE_stop (sfn : SfnEnvE) (es : EsEnv) (p : String → ParsedName)
    (lid : Option Int) (wid arn : String) (mx tot : Nat) (tok : Option String)
    (f : Nat) (b : List (List BulkEntry)) (resp : ListExecutionsResp) (n : Nat)
    (nb : List (List BulkEntry))
    (hf : sfn.listExecutions arn tok = .ok resp)
    (h : indexExecutions es p wid resp.executions = .ok (n, nb))
    (hn : 0 < n)
    (hs : mx ≤ tot + n ∨ jsStrFalsy resp.nextToken = true
      ∨ 0 < (resp.executions.filter
              (fun e => executionBeforeLastIndexed lid e)).length) :
    workflowLoopE sfn es p lid wid arn mx tot tok f b = .ok ⟨tot + n, f + 1, b ++ nb⟩ := by
  rw [workflowLoopE]
  simp [hf, h, hn, hs]

theorem workflowLoopE_continue (sfn : SfnEnvE) (es : EsEnv) (p : String → ParsedName)
    (lid : Option Int) (wid arn : String) (mx tot : Nat) (tok : Option String)
    (f : Nat) (b : List (List BulkEntry)) (resp : ListExecutionsResp) (n : Nat)
    (nb : List (List BulkEntry))
    (hf : sfn.listExecutions arn tok = .ok resp)
    (h : indexExecutions es p wid resp.executions = .ok (n, nb))
    (hn : 0 < n)
    (hs : ¬ (mx ≤ tot + n ∨ jsStrFalsy resp.nextToken = true
      ∨ 0 < (resp.executions.filter
              (fun e => executionBeforeLastIndexed lid e)).length)) :
    workflowLoopE sfn es p lid wid arn mx tot tok f b
      = workflowLoopE sfn es p lid wid arn mx (tot + n) resp.nextToken (f + 1)
          (b ++ nb) := by
  rw [workflowLoopE]
  simp [hf, h, hn, hs]

theorem workflowLoopE_ofTotal (sfn : SfnEnv) (es : EsEnv) (p : String → ParsedName)
    (lid : Option Int) (wid arn : String) (mx : Nat) :
    ∀ (tot : Nat) (tok : Option String) (f : Nat) (b : List (List BulkEntry)),
      workflowLoopE (SfnEnv.toE sfn) es p lid wid arn mx tot tok f b
        = workflowLoop sfn es p lid wid arn mx tot tok f b := by
  intro tot tok f b
  induction tot, tok, f, b using workflowLoop.induct sfn es p lid wid arn mx with
  | case1 tot tok f b resp msg h =>
    have hresp : resp = sfn.listExecutions arn tok := rfl
    rw [hresp] at h
    rw [workflowLoop_error sfn es p lid wid arn mx tot tok f b msg h]
    exact workflowLoopE_error (SfnEnv.toE sfn) es p lid wid arn mx tot tok f b
      (sfn.listExecutions arn tok) msg rfl h
  | case2 tot tok f b resp n nb h hn hs =>
    have hresp : resp = sfn.listExecutions arn tok := rfl
    rw [hresp] at h hs
    rw [workflowLoop_stop sfn es p lid wid arn mx tot tok f b n nb h hn hs]
    exact workflowLoopE_stop (SfnEnv.toE sfn) es p lid wid arn mx tot tok f b
      (sfn.listExecutions arn tok) n nb rfl h hn hs
  | case3 tot tok f b resp n nb h hn hs ih =>
    have hresp : resp = sfn.listExecutions arn tok := rfl
    rw [hresp] at h hs
    rw [workflowLoop_continue sfn es p lid wid arn mx tot tok f b n nb h hn hs,
      workflowLoopE_continue (SfnEnv.toE sfn) es p lid wid arn mx tot tok f b
        (sfn.listExecutions arn tok) n nb rfl h hn hs]
    exact ih
  | case4 tot tok f b resp n nb h hn =>
    have hn0 : n = 0 := Nat.eq_zero_of_not_pos hn
    subst hn0
    have hresp : resp = sfn.listExecutions arn tok := rfl
    rw [hresp] at h
    rw [workflowLoop_zero sfn es p lid wid arn mx tot tok f b nb h]
    exact workflowLoopE_zero (SfnEnv.toE sfn) es p lid wid arn mx tot tok f b
      (sfn.listExecutions arn tok) nb rfl h

theorem findAndIndexExecutionsE_ofTotal (sfn : SfnEnv) (es : EsEnv)
    (p : String → ParsedName) (meta : MetaHits) (t : Int) (wfs : List Workflow)
    (mx : Nat) :
    findAndIndexExecutionsE (SfnEnv.toE sfn) es p meta t wfs mx
      = findAndIndexExecutions sfn es p meta t wfs mx := by
  have hfun : (fun w => findWorkflowExecutionsE (SfnEnv.toE sfn) es p
        (getLastIndexedDate meta) w mx)
      = (fun w => findWorkflowExecutions sfn es p (getLastIndexedDate meta) w mx) :=
    funext fun w => workflowLoopE_ofTotal sfn es p (getLastIndexedDate meta)
      w.id w.arn mx 0 none 0 []
  simp only [findAndIndexExecutionsE, findAndIndexExecutions, hfun]

theorem handlerE_ofTotal (sfn : SfnEnv) (es : EsEnv) (p : String → ParsedName)
    (meta : MetaHits) (t1 t2 : Int) (wfs : List Workflow) :
    handlerE (SfnEnv.toE sfn) es p meta t1 t2 wfs = handler sfn es p meta t1 t2 wfs := by
  simp only [handlerE, handler, findAndIndexExecutionsE_ofTotal]

theorem cycleE_partitionResults (sfn : SfnEnvE) (es : EsEnv)
    (p : String → ParsedName) (meta : MetaHits) (t : Int) (wfs : List Workflow)
    (mx : Nat) :
    (findAndIndexExecutionsE sfn es p meta t wfs mx).partitionResults
      = wfs.map (fun w =>
          findWorkflowExecutionsE sfn es p (getLastIndexedDate meta) w mx) := by
  unfold findAndIndexExecutionsE
  cases hfe : firstErrorMsg
    (wfs.map fun w => findWorkflowExecutionsE sfn es p (getLastIndexedDate meta) w mx) <;>
    simp [hfe]

theorem cycleE_outcome_eq (sfn : SfnEnvE) (es : EsEnv)
    (p : String → ParsedName) (meta : MetaHits) (t : Int) (wfs : List Workflow)
    (mx : Nat) :
    (findAndIndexExecutionsE sfn es p meta t wfs mx).outcome
      = match firstErrorMsg (wfs.map fun w =>
          findWorkflowExecutionsE sfn es p (getLastIndexedDate meta) w mx) with
        | some m => .error m
        | none => .ok () := by
  unfold findAndIndexExecutionsE
  cases hfe : firstErrorMsg
    (wfs.map fun w => findWorkflowExecutionsE sfn es p (getLastIndexedDate meta) w mx) <;>
    simp [hfe]

theorem cycleE_saveCalls_eq (sfn : SfnEnvE) (es : EsEnv)
    (p : String → ParsedName) (meta : MetaHits) (t : Int) (wfs : List Workflow)
    (mx : Nat) :
    (findAndIndexExecutionsE sfn es p meta t wfs mx).saveCalls
      = match firstErrorMsg (wfs.map fun w =>
          findWorkflowExecutionsE sfn es p (getLastIndexedDate meta) w mx) with
        | some _ => []
        | none => [t] := by
  unfold findAndIndexExecutionsE
  cases hfe : firstErrorMsg
    (wfs.map fun w => findWorkflowExecutionsE sfn es p (getLastIndexedDate meta) w mx) <;>
    simp [hfe]

/-!
Claim theorems.
-/

/-- C1: For every sync cycle run by `findAndIndexExecutions`: (1) if a
partition's bulk-index response reports errors, that partition's loop throws
(`Failed saving to elasticsearch`); (2) if any partition's promise settled
with an error, `saveIndexedDate` is never called, so the stored
`last_indexed_date` is unchanged; (3) if every partition completes without
error, the watermark is written exactly once, with the cycle's start time
(captured before any page was fetched) as its value. -/
theorem c1_watermark_all_or_nothing :
    (∀ (sfn : SfnEnv) (es : EsEnv) (p : String → ParsedName) (lid : Option Int)
       (wid arn : String) (mx tot : Nat) (tok : Option String) (f : Nat)
       (b : List (List BulkEntry)),
       executionDocs p wid (sfn.listExecutions arn tok).executions ≠ [] →
       es.bulkErrors (docsToBulk
         (executionDocs p wid (sfn.listExecutions arn tok).executions)) = true →
       workflowLoop sfn es p lid wid arn mx tot tok f b
         = .error "Failed saving to elasticsearch") ∧
    (∀ (sfn : SfnEnv) (es : EsEnv) (p : String → ParsedName) (meta : MetaHits)
       (t : Int) (wfs : List Workflow) (mx : Nat) (m : String),
       Except.error m ∈ (findAndIndexExecutions sfn es p meta t wfs mx).partitionResults →
       (findAndIndexExecutions sfn es p meta t wfs mx).saveCalls = []) ∧
    (∀ (sfn : SfnEnv) (es : EsEnv) (p : String → ParsedName) (meta : MetaHits)
       (t : Int) (wfs : List Workflow) (mx : Nat),
       (∀ r ∈ (findAndIndexExecutions sfn es p meta t wfs mx).partitionResults,
         ∀ m, r ≠ .error m) →
       (findAndIndexExecutions sfn es p meta t wfs mx).saveCalls = [t]) := by
  refine ⟨?_, ?_, ?_⟩
  · intro sfn es p lid wid arn mx tot tok f b hne hbulk
    exact workflowLoop_error sfn es p lid wid arn mx tot tok f b _
      (indexExecutions_error_of_bulkErrors es p wid _ hne hbulk)
  · intro sfn es p meta t wfs mx m hmem
    exact cycle_saveCalls_of_error sfn es p meta t wfs mx m hmem
  · intro sfn es p meta t wfs mx hall
    exact cycle_saveCalls_of_all_ok sfn es p meta t wfs mx hall

/-- C1 witness: on a one-partition environment whose index rejects every bulk
request, the loop throws; on the same source with an accepting index, the
cycle writes the watermark `[777]`, its start time. -/
theorem c1_witness :
    executionDocs parseW "A" (sfnOne.listExecutions "a" none).executions ≠ [] ∧
    esBad.bulkErrors (docsToBulk
      (executionDocs parseW "A" (sfnOne.listExecutions "a" none).executions)) = true ∧
    workflowLoop sfnOne esBad parseW none "A" "a" 50000 0 none 0 []
      = .error "Failed saving to elasticsearch" ∧
    (findAndIndexExecutions sfnOne esOk parseW ⟨[]⟩ 777 [⟨"A", "a"⟩] 50000).saveCalls
      = [777] := by
  have hA := workflowLoop_stop sfnOne esOk parseW none "A" "a" 50000 0 none 0 []
    1 [docsToBulk (executionDocs parseW "A" [eA])] rfl (by decide)
    (Or.inr (Or.inl rfl))
  refine ⟨by decide, rfl, ?_, ?_⟩
  · exact c1_watermark_all_or_nothing.1 sfnOne esBad parseW none "A" "a" 50000 0 none 0 []
      (by decide) rfl
  · refine c1_watermark_all_or_nothing.2.2 sfnOne esOk parseW ⟨[]⟩ 777 [⟨"A", "a"⟩] 50000 ?_
    rw [cycle_partitionResults]
    intro r hr m
    simp only [List.map_cons, List.map_nil, List.mem_singleton] at hr
    subst hr
    rw [show findWorkflowExecutions sfnOne esOk parseW (getLastIndexedDate ⟨[]⟩)
        ⟨"A", "a"⟩ 50000 = workflowLoop sfnOne esOk parseW none "A" "a" 50000 0 none 0 []
      from rfl, hA]
    simp

/-- C3: with a non-null `lastIndexedDate` `T` and the 5-minute (300000 ms)
overlap threshold, a page containing at least one execution whose parsed stop
date is strictly below `T - 300000` ends the partition loop right after that
page is indexed: the iteration that fetched it is the last fetch, whether or
not the page carried a continuation token. -/
theorem c3_overlap_cutoff :
    ∀ (sfn : SfnEnv) (es : EsEnv) (p : String → ParsedName) (T : Int)
      (wid arn : String) (mx tot : Nat) (tok : Option String) (f : Nat)
      (b : List (List BulkEntry)) (n : Nat) (nb : List (List BulkEntry)),
      indexExecutions es p wid (sfn.listExecutions arn tok).executions = .ok (n, nb) →
      (∃ e ∈ (sfn.listExecutions arn tok).executions, ∃ s : Int,
        e.stopDate = some s ∧ s < T - 300000) →
      ∃ r, workflowLoop sfn es p (some T) wid arn mx tot tok f b = .ok r ∧
        r.fetches = f + 1 := by
  intro sfn es p T wid arn mx tot tok f b n nb hidx hex
  obtain ⟨e, he, s, hsd, hlt⟩ := hex
  have hbefore : executionBeforeLastIndexed (some T) e = true := by
    simp only [executionBeforeLastIndexed, hsd, jsNullToZero, LAST_INDEXED_THRESHOLD,
      decide_eq_true_eq]
    omega
  have hpos := filter_before_length_pos (some T) _ e he hbefore
  rcases Nat.eq_zero_or_pos n with hn0 | hn
  · subst hn0
    exact ⟨⟨tot, f + 1, b ++ nb⟩,
      workflowLoop_zero sfn es p (some T) wid arn mx tot tok f b nb hidx, rfl⟩
  · exact ⟨⟨tot + n, f + 1, b ++ nb⟩,
      workflowLoop_stop sfn es p (some T) wid arn mx tot tok f b n nb hidx hn
        (Or.inr (Or.inr hpos)), rfl⟩

/-- C3 witness: with watermark `T = 1000000` and a page holding only `eOld`
(stop date 100 < `T - 300000`) that still advertises a continuation token,
the loop stops after that single fetch. -/
theorem c3_witness :
    indexExecutions esOk parseW "W" (sfnOld.listExecutions "w" none).executions
      = .ok (1, [docsToBulk (executionDocs parseW "W" [eOld])]) ∧
    (∃ e ∈ (sfnOld.listExecutions "w" none).executions, ∃ s : Int,
      e.stopDate = some s ∧ s < 1000000 - 300000) ∧
    (∃ r, workflowLoop sfnOld esOk parseW (some 1000000) "W" "w" 50000 0 none 0 []
      = .ok r ∧ r.fetches = 0 + 1) := by
  refine ⟨rfl, ⟨eOld, by simp [sfnOld], 100, rfl, by decide⟩, ?_⟩
  exact c3_overlap_cutoff sfnOld esOk parseW 1000000 "W" "w" 50000 0 none 0 [] 1
    [docsToBulk (executionDocs parseW "W" [eOld])] rfl
    ⟨eOld, by simp [sfnOld], 100, rfl, by decide⟩

/-- C4: a source returning three pages of sizes 100, 100 and 40, all terminal,
none older than the cutoff, with (non-empty) continuation tokens only after
the first two pages, makes the partition loop perform exactly 3 page fetches
and accumulate `totalIndexed = 240`; and, in general, a page that yields no
continuation token ends the loop. -/
theorem c4_three_pages_and_exhaustion :
    (∀ (sfn : SfnEnv) (es : EsEnv) (p : String → ParsedName) (lid : Option Int)
       (wid arn : String) (mx : Nat) (p1 p2 p3 : List Execution) (t1 t2 : String),
       sfn.listExecutions arn none = ⟨p1, some t1⟩ →
       sfn.listExecutions arn (some t1) = ⟨p2, some t2⟩ →
       sfn.listExecutions arn (some t2) = ⟨p3, none⟩ →
       t1 ≠ "" → t2 ≠ "" →
       p1.length = 100 → p2.length = 100 → p3.length = 40 →
       (∀ e ∈ p1, e.status ≠ "RUNNING" ∧ executionBeforeLastIndexed lid e = false) →
       (∀ e ∈ p2, e.status ≠ "RUNNING" ∧ executionBeforeLastIndexed lid e = false) →
       (∀ e ∈ p3, e.status ≠ "RUNNING" ∧ executionBeforeLastIndexed lid e = false) →
       es.bulkErrors (docsToBulk (executionDocs p wid p1)) = false →
       es.bulkErrors (docsToBulk (executionDocs p wid p2)) = false →
       es.bulkErrors (docsToBulk (executionDocs p wid p3)) = false →
       200 < mx →
       ∃ r, findWorkflowExecutions sfn es p lid ⟨wid, arn⟩ mx = .ok r ∧
         r.fetches = 3 ∧ r.totalIndexed = 240) ∧
    (∀ (sfn : SfnEnv) (es : EsEnv) (p : String → ParsedName) (lid : Option Int)
       (wid arn : String) (mx tot : Nat) (tok : Option String) (f : Nat)
       (b : List (List BulkEntry)) (n : Nat) (nb : List (List BulkEntry)),
       indexExecutions es p wid (sfn.listExecutions arn tok).executions = .ok (n, nb) →
       (sfn.listExecutions arn tok).nextToken = none →
       ∃ r, workflowLoop sfn es p lid wid arn mx tot tok f b = .ok r ∧
         r.fetches = f + 1) := by
  constructor
  · intro sfn es p lid wid arn mx p1 p2 p3 t1 t2 hf1 hf2 hf3 ht1 ht2 hl1 hl2 hl3
      hp1 hp2 hp3 hb1 hb2 hb3 hmx
    have hterm1 : ∀ e ∈ p1, e.status ≠ "RUNNING" := fun e he => (hp1 e he).1
    have hterm2 : ∀ e ∈ p2, e.status ≠ "RUNNING" := fun e he => (hp2 e he).1
    have hterm3 : ∀ e ∈ p3, e.status ≠ "RUNNING" := fun e he => (hp3 e he).1
    have hold1 : ∀ e ∈ p1, executionBeforeLastIndexed lid e = false :=
      fun e he => (hp1 e he).2
    have hold2 : ∀ e ∈ p2, executionBeforeLastIndexed lid e = false :=
      fun e he => (hp2 e he).2
    have hold3 : ∀ e ∈ p3, executionBeforeLastIndexed lid e = false :=
      fun e he => (hp3 e he).2
    have hidx1 : indexExecutions es p wid (sfn.listExecutions arn none).executions
        = .ok (100, [docsToBulk (executionDocs p wid p1)]) := by
      rw [hf1]
      show indexExecutions es p wid p1 = _
      rw [indexExecutions_ok_of_terminal es p wid p1 hterm1 (by omega) hb1, hl1]
    have hidx2 : indexExecutions es p wid (sfn.listExecutions arn (some t1)).executions
        = .ok (100, [docsToBulk (executionDocs p wid p2)]) := by
      rw [hf2]
      show indexExecutions es p wid p2 = _
      rw [indexExecutions_ok_of_terminal es p wid p2 hterm2 (by omega) hb2, hl2]
    have hidx3 : indexExecutions es p wid (sfn.listExecutions arn (some t2)).executions
        = .ok (40, [docsToBulk (executionDocs p wid p3)]) := by
      rw [hf3]
      show indexExecutions es p wid p3 = _
      rw [indexExecutions_ok_of_terminal es p wid p3 hterm3 (by omega) hb3, hl3]
    have hns1 : ¬ (mx ≤ 0 + 100
        ∨ jsStrFalsy (sfn.listExecutions arn none).nextToken = true
        ∨ 0 < ((sfn.listExecutions arn none).executions.filter
                (fun e => executionBeforeLastIndexed lid e)).length) := by
      rw [hf1]
      show ¬ (mx ≤ 0 + 100 ∨ jsStrFalsy (some t1) = true
        ∨ 0 < (p1.filter (fun e => executionBeforeLastIndexed lid e)).length)
      rw [filter_before_nil lid p1 hold1]
      push_neg
      refine ⟨by omega, by simp [jsStrFalsy, ht1], by simp⟩
    have hns2 : ¬ (mx ≤ 0 + 100 + 100
        ∨ jsStrFalsy (sfn.listExecutions arn (some t1)).nextToken = true
        ∨ 0 < ((sfn.listExecutions arn (some t1)).executions.filter
                (fun e => executionBeforeLastIndexed lid e)).length) := by
      rw [hf2]
      show ¬ (mx ≤ 0 + 100 + 100 ∨ jsStrFalsy (some t2) = true
        ∨ 0 < (p2.filter (fun e => executionBeforeLastIndexed lid e)).length)
      rw [filter_before_nil lid p2 hold2]
      push_neg
      refine ⟨by omega, by simp [jsStrFalsy, ht2], by simp⟩
    have step1 := workflowLoop_continue sfn es p lid wid arn mx 0 none 0 []
      100 [docsToBulk (executionDocs p wid p1)] hidx1 (by omega) hns1
    have step1a : workflowLoop sfn es p lid wid arn mx 0 none 0 []
        = workflowLoop sfn es p lid wid arn mx (0 + 100) (some t1) (0 + 1)
            ([] ++ [docsToBulk (executionDocs p wid p1)]) := by
      rw [step1, hf1]
    have step2 := workflowLoop_continue sfn es p lid wid arn mx (0 + 100) (some t1)
      (0 + 1) ([] ++ [docsToBulk (executionDocs p wid p1)])
      100 [docsToBulk (executionDocs p wid p2)] hidx2 (by omega) hns2
    have step2a : workflowLoop sfn es p lid wid arn mx (0 + 100) (some t1) (0 + 1)
          ([] ++ [docsToBulk (executionDocs p wid p1)])
        = workflowLoop sfn es p lid wid arn mx (0 + 100 + 100) (some t2) (0 + 1 + 1)
            ([] ++ [docsToBulk (executionDocs p wid p1)]
              ++ [docsToBulk (executionDocs p wid p2)]) := by
      rw [step2, hf2]
    have step3 := workflowLoop_stop sfn es p lid wid arn mx (0 + 100 + 100) (some t2)
      (0 + 1 + 1)
      ([] ++ [docsToBulk (executionDocs p wid p1)] ++ [docsToBulk (executionDocs p wid p2)])
      40 [docsToBulk (executionDocs p wid p3)] hidx3 (by omega)
      (Or.inr (Or.inl (by rw [hf3]; rfl)))
    refine ⟨⟨0 + 100 + 100 + 40, 0 + 1 + 1 + 1,
      [] ++ [docsToBulk (executionDocs p wid p1)] ++ [docsToBulk (executionDocs p wid p2)]
        ++ [docsToBulk (executionDocs p wid p3)]⟩, ?_, ?_, ?_⟩
    · show workflowLoop sfn es p lid wid arn mx 0 none 0 [] = _
      rw [step1a, step2a]
      exact step3
    · norm_num
    · norm_num
  · intro sfn es p lid wid arn mx tot tok f b n nb hidx htok
    have hfalsy : jsStrFalsy (sfn.listExecutions arn tok).nextToken = true := by
      rw [htok]; rfl
    rcases Nat.eq_zero_or_pos n with hn0 | hn
    · subst hn0
      exact ⟨⟨tot, f + 1, b ++ nb⟩,
        workflowLoop_zero sfn es p lid wid arn mx tot tok f b nb hidx, rfl⟩
    · exact ⟨⟨tot + n, f + 1, b ++ nb⟩,
        workflowLoop_stop sfn es p lid wid arn mx tot tok f b n nb hidx hn
          (Or.inr (Or.inl hfalsy)), rfl⟩

/-- C4 witness: the concrete three-page source `sfn3` (pages of 100, 100 and
40 copies of `eA`) yields exactly 3 fetches and 240 indexed; and on a source
whose single page has no continuation token the loop ends after one fetch. -/
theorem c4_witness :
    sfn3.listExecutions "a" none = ⟨List.replicate 100 eA, some "t1"⟩ ∧
    sfn3.listExecutions "a" (some "t1") = ⟨List.replicate 100 eA, some "t2"⟩ ∧
    sfn3.listExecutions "a" (some "t2") = ⟨List.replicate 40 eA, none⟩ ∧
    (∃ r, findWorkflowExecutions sfn3 esOk parseW none ⟨"W", "a"⟩
        MAX_EXECUTIONS_TO_INDEX = .ok r ∧ r.fetches = 3 ∧ r.totalIndexed = 240) ∧
    (∃ r, workflowLoop sfnOne esOk parseW none "W" "a" 50000 5 none 2 [] = .ok r ∧
      r.fetches = 2 + 1) := by
  have hrep : ∀ k : Nat, ∀ e ∈ List.replicate k eA,
      e.status ≠ "RUNNING" ∧ executionBeforeLastIndexed none e = false := by
    intro k e he
    rw [List.eq_of_mem_replicate he]
    exact ⟨by decide, by decide⟩
  refine ⟨rfl, rfl, rfl, ?_, ?_⟩
  · exact c4_three_pages_and_exhaustion.1 sfn3 esOk parseW none "W" "a"
      MAX_EXECUTIONS_TO_INDEX (List.replicate 100 eA) (List.replicate 100 eA)
      (List.replicate 40 eA) "t1" "t2" rfl rfl rfl (by decide) (by decide)
      (by simp) (by simp) (by simp) (hrep 100) (hrep 100) (hrep 40)
      rfl rfl rfl (by decide)
  · exact c4_three_pages_and_exhaustion.2 sfnOne esOk parseW none "W" "a" 50000 5
      none 2 [] 1 [docsToBulk (executionDocs parseW "W" [eA])] rfl rfl

/-- C5: a fetched page whose executions, after filtering out `RUNNING` ones,
form an empty batch makes `indexExecutions` return 0 with no bulk write
issued, and the partition loop stops with that fetch as its last: totals,
fetch count (one more for this page) and bulk calls are final. -/
theorem c5_empty_batch_stops :
    ∀ (sfn : SfnEnv) (es : EsEnv) (p : String → ParsedName) (lid : Option Int)
      (wid arn : String) (mx tot : Nat) (tok : Option String) (f : Nat)
      (b : List (List BulkEntry)),
      (sfn.listExecutions arn tok).executions.filter
        (fun e => e.status ≠ "RUNNING") = [] →
      indexExecutions es p wid (sfn.listExecutions arn tok).executions = .ok (0, []) ∧
      workflowLoop sfn es p lid wid arn mx tot tok f b = .ok ⟨tot, f + 1, b⟩ := by
  intro sfn es p lid wid arn mx tot tok f b hnil
  have hidx := indexExecutions_zero_of_filter_nil es p wid _ hnil
  refine ⟨hidx, ?_⟩
  have h0 := workflowLoop_zero sfn es p lid wid arn mx tot tok f b [] hidx
  simpa using h0

/-- C5 witness: on a page holding only the `RUNNING` execution `eR` (and a
continuation token), the filtered batch is empty, `indexExecutions` returns 0
with no bulk call, and the loop stops without another fetch. -/
theorem c5_witness :
    (sfnR.listExecutions "w" none).executions.filter
      (fun e => e.status ≠ "RUNNING") = [] ∧
    indexExecutions esOk parseW "W" (sfnR.listExecutions "w" none).executions
      = .ok (0, []) ∧
    workflowLoop sfnR esOk parseW none "W" "w" 50000 7 none 2 []
      = .ok ⟨7, 2 + 1, []⟩ := by
  have h := c5_empty_batch_stops sfnR esOk parseW none "W" "w" 50000 7 none 2 []
    (by decide)
  exact ⟨by decide, h.1, h.2⟩

/-- C6: for every non-`RUNNING` execution, the produced document has `_id`
equal to the execution name, `workflow_id` the partition's workflow id,
`collection_id`/`granule_id` parsed from the name, `start_date`/`stop_date`
the epoch-millisecond parses of the raw dates, `elapsed_ms` equal to
`stop_date` minus `start_date` (with NaN propagation), and `success` true iff
the status is `SUCCEEDED`; and the batch built by `indexExecutions` consists
exactly of the documents of the non-`RUNNING` executions. -/
theorem c6_doc_projection :
    (∀ (p : String → ParsedName) (wid : String) (e : Execution),
      e.status ≠ "RUNNING" →
      (executionToDoc p wid e)._id = e.name ∧
      (executionToDoc p wid e).workflow_id = wid ∧
      (executionToDoc p wid e).collection_id = (p e.name).collectionId ∧
      (executionToDoc p wid e).granule_id = (p e.name).granuleId ∧
      (executionToDoc p wid e).start_date = e.startDate ∧
      (executionToDoc p wid e).stop_date = e.stopDate ∧
      (executionToDoc p wid e).elapsed_ms
        = jsSub (executionToDoc p wid e).stop_date (executionToDoc p wid e).start_date ∧
      ((executionToDoc p wid e).success = true ↔ e.status = "SUCCEEDED")) ∧
    (∀ (p : String → ParsedName) (wid : String) (execs : List Execution)
       (d : ExecutionDoc), d ∈ executionDocs p wid execs →
       ∃ e ∈ execs, e.status ≠ "RUNNING" ∧ d = executionToDoc p wid e) ∧
    (∀ (p : String → ParsedName) (wid : String) (execs : List Execution)
       (e : Execution), e ∈ execs → e.status ≠ "RUNNING" →
       executionToDoc p wid e ∈ executionDocs p wid execs) := by
  refine ⟨?_, ?_, ?_⟩
  · intro p wid e _h
    refine ⟨rfl, rfl, rfl, rfl, rfl, rfl, rfl, ?_⟩
    simp [executionToDoc]
  · intro p wid execs d hd
    unfold executionDocs at hd
    obtain ⟨e, he, rfl⟩ := List.mem_map.mp hd
    have hmem := List.mem_filter.mp he
    exact ⟨e, hmem.1, by simpa using hmem.2, rfl⟩
  · intro p wid execs e he hst
    unfold executionDocs
    exact List.mem_map_of_mem _ (List.mem_filter.mpr ⟨he, by simpa using hst⟩)

/-- C6 witness: the field equations instantiated on the concrete execution
`eA`, and membership of its document in the batch for a page that also holds
a `RUNNING` execution. -/
theorem c6_witness :
    eA.status ≠ "RUNNING" ∧
    ((executionToDoc parseW "W" eA)._id = eA.name ∧
     (executionToDoc parseW "W" eA).workflow_id = "W" ∧
     (executionToDoc parseW "W" eA).collection_id = (parseW eA.name).collectionId ∧
     (executionToDoc parseW "W" eA).granule_id = (parseW eA.name).granuleId ∧
     (executionToDoc parseW "W" eA).start_date = eA.startDate ∧
     (executionToDoc parseW "W" eA).stop_date = eA.stopDate ∧
     (executionToDoc parseW "W" eA).elapsed_ms
       = jsSub (executionToDoc parseW "W" eA).stop_date
           (executionToDoc parseW "W" eA).start_date ∧
     ((executionToDoc parseW "W" eA).success = true ↔ eA.status = "SUCCEEDED")) ∧
    executionToDoc parseW "W" eA ∈ executionDocs parseW "W" [eR, eA] :=
  ⟨by decide,
   c6_doc_projection.1 parseW "W" eA (by decide),
   c6_doc_projection.2.2 parseW "W" [eR, eA] eA (by simp) (by decide)⟩

/-- C8: assuming every page fetch returns, each partition's `while (!done)`
loop terminates (it is a total function here) and, when it completes without
throwing, it performed at most `maxRecordsPerPartition + 1` page fetches:
every productive iteration adds at least one indexed document and the loop
stops at the cap. -/
theorem c8_loop_bounded :
    ∀ (sfn : SfnEnv) (es : EsEnv) (p : String → ParsedName) (lid : Option Int)
      (w : Workflow) (mx : Nat) (r : LoopResult),
      findWorkflowExecutions sfn es p lid w mx = .ok r → r.fetches ≤ mx + 1 := by
  intro sfn es p lid w mx r h
  unfold findWorkflowExecutions at h
  have hb := workflowLoop_fetches_le sfn es p lid w.id w.arn mx 0 none 0 [] r h
  simpa using hb

/-- C8 witness: a concrete one-page partition completes with one fetch, within
the `maxRecordsPerPartition + 1` bound. -/
theorem c8_witness :
    findWorkflowExecutions sfnOne esOk parseW none ⟨"A", "a"⟩ 50000
      = .ok ⟨0 + 1, 0 + 1, [] ++ [docsToBulk (executionDocs parseW "A" [eA])]⟩ ∧
    LoopResult.fetches
      ⟨0 + 1, 0 + 1, [] ++ [docsToBulk (executionDocs parseW "A" [eA])]⟩
      ≤ 50000 + 1 := by
  have hEq : findWorkflowExecutions sfnOne esOk parseW none ⟨"A", "a"⟩ 50000
      = .ok ⟨0 + 1, 0 + 1, [] ++ [docsToBulk (executionDocs parseW "A" [eA])]⟩ := by
    show workflowLoop sfnOne esOk parseW none "A" "a" 50000 0 none 0 [] = _
    exact workflowLoop_stop sfnOne esOk parseW none "A" "a" 50000 0 none 0 [] 1
      [docsToBulk (executionDocs parseW "A" [eA])] rfl (by decide) (Or.inr (Or.inl rfl))
  exact ⟨hEq, c8_loop_bounded sfnOne esOk parseW none ⟨"A", "a"⟩ 50000 _ hEq⟩

/-- C7: across two successful cycles run one after another (so the second
cycle's start time, captured by a later `Date.now()`, is at least the
first's), each cycle writes exactly its own captured start time, and the
watermark values are non-decreasing. -/
theorem c7_watermark_monotone :
    ∀ (sfn1 sfn2 : SfnEnv) (es1 es2 : EsEnv) (p1 p2 : String → ParsedName)
      (meta : MetaHits) (t1 t2 : Int) (wfs1 wfs2 : List Workflow) (mx1 mx2 : Nat),
      t1 ≤ t2 →
      (findAndIndexExecutions sfn1 es1 p1 meta t1 wfs1 mx1).outcome = .ok () →
      (findAndIndexExecutions sfn2 es2 p2
          (metaAfter meta (findAndIndexExecutions sfn1 es1 p1 meta t1 wfs1 mx1))
          t2 wfs2 mx2).outcome = .ok () →
      ∃ d1 d2 : Int,
        (findAndIndexExecutions sfn1 es1 p1 meta t1 wfs1 mx1).saveCalls = [d1] ∧
        (findAndIndexExecutions sfn2 es2 p2
            (metaAfter meta (findAndIndexExecutions sfn1 es1 p1 meta t1 wfs1 mx1))
            t2 wfs2 mx2).saveCalls = [d2] ∧
        d1 ≤ d2 := by
  intro sfn1 sfn2 es1 es2 p1 p2 meta t1 t2 wfs1 wfs2 mx1 mx2 h12 h1 h2
  exact ⟨t1, t2,
    cycle_saveCalls_of_outcome_ok sfn1 es1 p1 meta t1 wfs1 mx1 h1,
    cycle_saveCalls_of_outcome_ok sfn2 es2 p2 _ t2 wfs2 mx2 h2, h12⟩

/-- C7 witness: a successful one-partition cycle started at 10 followed by a
successful cycle started at 20 writes watermarks 10 and then 20. -/
theorem c7_witness :
    (10 : Int) ≤ 20 ∧
    (findAndIndexExecutions sfnOne esOk parseW ⟨[]⟩ 10 [⟨"A", "a"⟩] 50000).outcome
      = .ok () ∧
    (∃ d1 d2 : Int,
      (findAndIndexExecutions sfnOne esOk parseW ⟨[]⟩ 10 [⟨"A", "a"⟩] 50000).saveCalls
        = [d1] ∧
      (findAndIndexExecutions sfnOne esOk parseW
          (metaAfter ⟨[]⟩ (findAndIndexExecutions sfnOne esOk parseW ⟨[]⟩ 10
            [⟨"A", "a"⟩] 50000))
          20 [] 777).saveCalls = [d2] ∧
      d1 ≤ d2) := by
  have hA : findWorkflowExecutions sfnOne esOk parseW (getLastIndexedDate ⟨[]⟩)
      ⟨"A", "a"⟩ 50000
      = .ok ⟨0 + 1, 0 + 1, [] ++ [docsToBulk (executionDocs parseW "A" [eA])]⟩ := by
    show workflowLoop sfnOne esOk parseW none "A" "a" 50000 0 none 0 [] = _
    exact workflowLoop_stop sfnOne esOk parseW none "A" "a" 50000 0 none 0 [] 1
      [docsToBulk (executionDocs parseW "A" [eA])] rfl (by decide) (Or.inr (Or.inl rfl))
  have h1 : (findAndIndexExecutions sfnOne esOk parseW ⟨[]⟩ 10 [⟨"A", "a"⟩] 50000).outcome
      = .ok () := by
    rw [cycle_outcome_eq]
    simp [firstErrorMsg, hA]
  have h2 : (findAndIndexExecutions sfnOne esOk parseW
      (metaAfter ⟨[]⟩ (findAndIndexExecutions sfnOne esOk parseW ⟨[]⟩ 10
        [⟨"A", "a"⟩] 50000)) 20 [] 777).outcome = .ok () := by
    rw [cycle_outcome_eq]
    simp [firstErrorMsg]
  exact ⟨by decide, h1,
    c7_watermark_monotone sfnOne sfnOne esOk esOk parseW parseW ⟨[]⟩ 10 20
      [⟨"A", "a"⟩] [] 50000 777 (by decide) h1 h2⟩

/-- C2 counterexample: the cycle's result is not a summary map of
per-partition indexed counts, and a partition failure does raise into the
cycle result — whether the partition's page fetch rejects (`sfnF`) or its
bulk write fails (`sfnW2`/`esW2`), the whole cycle rejects with that error
and the trigger reports a bare failure message, even though the sibling
partition's page was indexed (its promise settled with an ok count). -/
theorem c2_counterexample :
    (findAndIndexExecutionsE sfnF esOk parseW ⟨[]⟩ 777 wfsW2
        MAX_EXECUTIONS_TO_INDEX).outcome = .error "Network error" ∧
    (findAndIndexExecutionsE sfnF esOk parseW ⟨[]⟩ 777 wfsW2
        MAX_EXECUTIONS_TO_INDEX).partitionResults
      = [.ok ⟨0 + 1, 0 + 1, [] ++ [docsToBulk (executionDocs parseW "A" [eA])]⟩,
         .error "Network error"] ∧
    handlerE sfnF esOk parseW ⟨[]⟩ 777 888 wfsW2 = .failure "Network error" ∧
    (findAndIndexExecutionsE (SfnEnv.toE sfnW2) esW2 parseW ⟨[]⟩ 777 wfsW2
        MAX_EXECUTIONS_TO_INDEX).outcome = .error "Failed saving to elasticsearch" ∧
    handlerE (SfnEnv.toE sfnW2) esW2 parseW ⟨[]⟩ 777 888 wfsW2
      = .failure "Failed saving to elasticsearch" := by
  have hAF : findWorkflowExecutionsE sfnF esOk parseW (getLastIndexedDate ⟨[]⟩)
      ⟨"A", "a"⟩ MAX_EXECUTIONS_TO_INDEX
      = .ok ⟨0 + 1, 0 + 1, [] ++ [docsToBulk (executionDocs parseW "A" [eA])]⟩ := by
    show workflowLoopE sfnF esOk parseW none "A" "a" MAX_EXECUTIONS_TO_INDEX 0 none 0 []
      = _
    exact workflowLoopE_stop sfnF esOk parseW none "A" "a" MAX_EXECUTIONS_TO_INDEX
      0 none 0 [] ⟨[eA], none⟩ 1 [docsToBulk (executionDocs parseW "A" [eA])]
      rfl rfl (by decide) (Or.inr (Or.inl rfl))
  have hBF : findWorkflowExecutionsE sfnF esOk parseW (getLastIndexedDate ⟨[]⟩)
      ⟨"B", "b"⟩ MAX_EXECUTIONS_TO_INDEX = .error "Network error" := by
    show workflowLoopE sfnF esOk parseW none "B" "b" MAX_EXECUTIONS_TO_INDEX 0 none 0 []
      = _
    exact workflowLoopE_fetch_error sfnF esOk parseW none "B" "b"
      MAX_EXECUTIONS_TO_INDEX 0 none 0 [] "Network error" rfl
  have hoF : (findAndIndexExecutionsE sfnF esOk parseW ⟨[]⟩ 777 wfsW2
      MAX_EXECUTIONS_TO_INDEX).outcome = .error "Network error" := by
    rw [cycleE_outcome_eq]
    simp [firstErrorMsg, wfsW2, hAF, hBF]
  have hA : findWorkflowExecutions sfnW2 esW2 parseW (getLastIndexedDate ⟨[]⟩)
      ⟨"A", "a"⟩ MAX_EXECUTIONS_TO_INDEX
      = .ok ⟨0 + 1, 0 + 1, [] ++ [docsToBulk (executionDocs parseW "A" [eA])]⟩ := by
    show workflowLoop sfnW2 esW2 parseW none "A" "a" MAX_EXECUTIONS_TO_INDEX 0 none 0 []
      = _
    exact workflowLoop_stop sfnW2 esW2 parseW none "A" "a" MAX_EXECUTIONS_TO_INDEX
      0 none 0 [] 1 [docsToBulk (executionDocs parseW "A" [eA])] rfl (by decide)
      (Or.inr (Or.inl rfl))
  have hB : findWorkflowExecutions sfnW2 esW2 parseW (getLastIndexedDate ⟨[]⟩)
      ⟨"B", "b"⟩ MAX_EXECUTIONS_TO_INDEX = .error "Failed saving to elasticsearch" := by
    show workflowLoop sfnW2 esW2 parseW none "B" "b" MAX_EXECUTIONS_TO_INDEX 0 none 0 []
      = _
    exact workflowLoop_error sfnW2 esW2 parseW none "B" "b" MAX_EXECUTIONS_TO_INDEX
      0 none 0 [] "Failed saving to elasticsearch" rfl
  have hoB : (findAndIndexExecutions sfnW2 esW2 parseW ⟨[]⟩ 777 wfsW2
      MAX_EXECUTIONS_TO_INDEX).outcome = .error "Failed saving to elasticsearch" := by
    rw [cycle_outcome_eq]
    simp [firstErrorMsg, wfsW2, hA, hB]
  refine ⟨hoF, ?_, ?_, ?_, ?_⟩
  · rw [cycleE_partitionResults]
    simp [wfsW2, hAF, hBF]
  · simp [handlerE, hoF]
  · rw [findAndIndexExecutionsE_ofTotal]
    exact hoB
  · rw [handlerE_ofTotal]
    simp [handler, hoB]

/-- C2 (amended): when one partition's page fetch or bulk write fails during
a cycle, the failure does not raise into sibling partitions — every
partition's promise result is its own loop's, computed independently — but
the error is not isolated from the cycle's result, and that result is no
per-partition summary: the rejected page fetch or the failed bulk write
rejects that partition's loop, any failing partition makes
`findAndIndexExecutions` reject instead of resolving, the handler then
reports the error message through its callback, and on success the handler
returns only the fixed completion string, with no indexedCounts map (counts
are only logged). -/
theorem c2_error_propagates_no_summary :
    (∀ (sfn : SfnEnvE) (es : EsEnv) (p : String → ParsedName) (meta : MetaHits)
       (t : Int) (wfs : List Workflow) (mx : Nat),
       (findAndIndexExecutionsE sfn es p meta t wfs mx).partitionResults
         = wfs.map (fun w =>
             findWorkflowExecutionsE sfn es p (getLastIndexedDate meta) w mx)) ∧
    (∀ (sfn : SfnEnvE) (es : EsEnv) (p : String → ParsedName) (lid : Option Int)
       (wid arn : String) (mx tot : Nat) (tok : Option String) (f : Nat)
       (b : List (List BulkEntry)) (msg : String),
       sfn.listExecutions arn tok = .error msg →
       workflowLoopE sfn es p lid wid arn mx tot tok f b = .error msg) ∧
    (∀ (sfn : SfnEnvE) (es : EsEnv) (p : String → ParsedName) (lid : Option Int)
       (wid arn : String) (mx tot : Nat) (tok : Option String) (f : Nat)
       (b : List (List BulkEntry)) (resp : ListExecutionsResp),
       sfn.listExecutions arn tok = .ok resp →
       executionDocs p wid resp.executions ≠ [] →
       es.bulkErrors (docsToBulk (executionDocs p wid resp.executions)) = true →
       workflowLoopE sfn es p lid wid arn mx tot tok f b
         = .error "Failed saving to elasticsearch") ∧
    (∀ (sfn : SfnEnvE) (es : EsEnv) (p : String → ParsedName) (meta : MetaHits)
       (t : Int) (wfs : List Workflow) (mx : Nat) (m : String),
       Except.error m ∈ (findAndIndexExecutionsE sfn es p meta t wfs mx).partitionResults →
       ∃ m2, (findAndIndexExecutionsE sfn es p meta t wfs mx).outcome = .error m2) ∧
    (∀ (sfn : SfnEnvE) (es : EsEnv) (p : String → ParsedName) (meta : MetaHits)
       (t1 t2 : Int) (wfs : List Workflow) (m : String),
       (findAndIndexExecutionsE sfn es p meta t1 wfs MAX_EXECUTIONS_TO_INDEX).outcome
         = .error m →
       handlerE sfn es p meta t1 t2 wfs = .failure m) ∧
    (∀ (sfn : SfnEnvE) (es : EsEnv) (p : String → ParsedName) (meta : MetaHits)
       (t1 t2 : Int) (wfs : List Workflow),
       (findAndIndexExecutionsE sfn es p meta t1 wfs MAX_EXECUTIONS_TO_INDEX).outcome
         = .ok () →
       (findAndIndexExecutionsE sfn es p
           (metaAfter meta
             (findAndIndexExecutionsE sfn es p meta t1 wfs MAX_EXECUTIONS_TO_INDEX))
           t2 wfs MAX_EXECUTIONS_TO_INDEX).outcome = .ok () →
       handlerE sfn es p meta t1 t2 wfs
         = .success "Elasticsearch indexing complete") := by
  refine ⟨?_, ?_, ?_, ?_, ?_, ?_⟩
  · intro sfn es p meta t wfs mx
    exact cycleE_partitionResults sfn es p meta t wfs mx
  · intro sfn es p lid wid arn mx tot tok f b msg h
    exact workflowLoopE_fetch_error sfn es p lid wid arn mx tot tok f b msg h
  · intro sfn es p lid wid arn mx tot tok f b resp hf hne hbulk
    exact workflowLoopE_error sfn es p lid wid arn mx tot tok f b resp _ hf
      (indexExecutions_error_of_bulkErrors es p wid resp.executions hne hbulk)
  · intro sfn es p meta t wfs mx m hmem
    rw [cycleE_partitionResults] at hmem
    rw [cycleE_outcome_eq]
    cases hfe : firstErrorMsg
      (wfs.map fun w => findWorkflowExecutionsE sfn es p (getLastIndexedDate meta) w mx) with
    | none => exact absurd rfl ((firstErrorMsg_eq_none_iff _).mp hfe _ hmem m)
    | some m2 => exact ⟨m2, rfl⟩
  · intro sfn es p meta t1 t2 wfs m h
    simp [handlerE, h]
  · intro sfn es p meta t1 t2 wfs h1 h2
    simp [handlerE, h1, h2]

/-- C2 witness: on the concrete environment `sfnF` whose partition `b` page
fetch rejects, that partition's loop rejects with the fetch error, the cycle
rejects with it, and the handler reports it as a failure. -/
theorem c2_witness :
    sfnF.listExecutions "b" none = .error "Network error" ∧
    workflowLoopE sfnF esOk parseW none "B" "b" MAX_EXECUTIONS_TO_INDEX 0 none 0 []
      = .error "Network error" ∧
    (findAndIndexExecutionsE sfnF esOk parseW ⟨[]⟩ 777 wfsW2
        MAX_EXECUTIONS_TO_INDEX).outcome = .error "Network error" ∧
    handlerE sfnF esOk parseW ⟨[]⟩ 777 888 wfsW2 = .failure "Network error" := by
  have hAF : findWorkflowExecutionsE sfnF esOk parseW (getLastIndexedDate ⟨[]⟩)
      ⟨"A", "a"⟩ MAX_EXECUTIONS_TO_INDEX
      = .ok ⟨0 + 1, 0 + 1, [] ++ [docsToBulk (executionDocs parseW "A" [eA])]⟩ := by
    show workflowLoopE sfnF esOk parseW none "A" "a" MAX_EXECUTIONS_TO_INDEX 0 none 0 []
      = _
    exact workflowLoopE_stop sfnF esOk parseW none "A" "a" MAX_EXECUTIONS_TO_INDEX
      0 none 0 [] ⟨[eA], none⟩ 1 [docsToBulk (executionDocs parseW "A" [eA])]
      rfl rfl (by decide) (Or.inr (Or.inl rfl))
  have hBF : findWorkflowExecutionsE sfnF esOk parseW (getLastIndexedDate ⟨[]⟩)
      ⟨"B", "b"⟩ MAX_EXECUTIONS_TO_INDEX = .error "Network error" := by
    show workflowLoopE sfnF esOk parseW none "B" "b" MAX_EXECUTIONS_TO_INDEX 0 none 0 []
      = _
    exact workflowLoopE_fetch_error sfnF esOk parseW none "B" "b"
      MAX_EXECUTIONS_TO_INDEX 0 none 0 [] "Network error" rfl
  have hoF : (findAndIndexExecutionsE sfnF esOk parseW ⟨[]⟩ 777 wfsW2
      MAX_EXECUTIONS_TO_INDEX).outcome = .error "Network error" := by
    rw [cycleE_outcome_eq]
    simp [firstErrorMsg, wfsW2, hAF, hBF]
  exact ⟨rfl,
    c2_error_propagates_no_summary.2.1 sfnF esOk parseW none "B" "b"
      MAX_EXECUTIONS_TO_INDEX 0 none 0 [] "Network error" rfl,
    hoF,
    c2_error_propagates_no_summary.2.2.2.2.1 sfnF esOk parseW ⟨[]⟩ 777 888 wfsW2
      "Network error" hoF⟩

theorem tryAcquire_busy (st : LeaseState) (key : String) (now ttl : Int)
    (h : leaseActive st key now = true) :
    tryAcquire st key now ttl = (false, st) := by
  unfold tryAcquire
  rw [h]
  simp

/-- C9: lease-guarded exclusive execution (lease store modelled from the
spec, invoked as `GenerateMrfTask.run` with the source's 20-minute
`LOCK_TIMEOUT_MS`): starting from a state with no unexpired lease on the key,
the first caller runs its function and gets the function's own result, the
lease is released on completion whatever that result was, and a second caller
arriving while the first's lease is unexpired gets `busy` immediately with
the store untouched. -/
theorem c9_lease_exclusive :
    ∀ {α : Type} (st0 : LeaseState) (key : String) (n1 n2 : Int)
      (fn1 fn2 : Except String α),
      leaseActive st0 key n1 = false →
      n2 < n1 + LOCK_TIMEOUT_MS →
      (GenerateMrfTask.run st0 key n1 fn1).1 = .ran fn1 ∧
      ((GenerateMrfTask.run st0 key n1 fn1).2).leases key = none ∧
      (GenerateMrfTask.run (tryAcquire st0 key n1 LOCK_TIMEOUT_MS).2 key n2 fn2)
        = (.busy, (tryAcquire st0 key n1 LOCK_TIMEOUT_MS).2) := by
  intro α st0 key n1 n2 fn1 fn2 hfree hn2
  have hacq : tryAcquire st0 key n1 LOCK_TIMEOUT_MS
      = (true, ⟨fun k =>
          if k = key then some (n1 + LOCK_TIMEOUT_MS) else st0.leases k⟩) := by
    unfold tryAcquire
    rw [hfree]
    simp
  have hact2 : leaseActive (tryAcquire st0 key n1 LOCK_TIMEOUT_MS).2 key n2 = true := by
    rw [hacq]
    simp [leaseActive]
    exact hn2
  refine ⟨?_, ?_, ?_⟩
  · simp [GenerateMrfTask.run, withLease, hacq]
  · simp [GenerateMrfTask.run, withLease, hacq, releaseLease]
  · have hacq2 := tryAcquire_busy (tryAcquire st0 key n1 LOCK_TIMEOUT_MS).2 key n2
      LOCK_TIMEOUT_MS hact2
    simp [GenerateMrfTask.run, withLease, hacq2]

/-- C9 witness: from the empty lease store, caller one at time 0 runs and
releases, and caller two at time 5 (within the 20-minute lease) is busy. -/
theorem c9_witness :
    leaseActive st0W "k" 0 = false ∧
    (5 : Int) < 0 + LOCK_TIMEOUT_MS ∧
    ((GenerateMrfTask.run st0W "k" 0 (Except.ok (1 : Nat))).1 = .ran (.ok 1) ∧
     ((GenerateMrfTask.run st0W "k" 0 (Except.ok (1 : Nat))).2).leases "k" = none ∧
     (GenerateMrfTask.run (tryAcquire st0W "k" 0 LOCK_TIMEOUT_MS).2 "k" 5
        (Except.ok (2 : Nat)))
       = (.busy, (tryAcquire st0W "k" 0 LOCK_TIMEOUT_MS).2)) :=
  ⟨rfl, by decide,
   c9_lease_exclusive st0W "k" 0 5 (.ok 1) (.ok 2) rfl (by decide)⟩

/-- C10 counterexample: the cutoff predicate on a first cycle (null
watermark) is `Date.parse(stopDate) < -300000`, which is TRUE — not false —
for an execution whose stop date parses to -300001 (a valid pre-1970
instant), contradicting the claim that it is false for every execution with a
parseable stop date. -/
theorem c10_counterexample :
    executionBeforeLastIndexed none ⟨"e1", "SUCCEEDED", some 0, some (-300001)⟩
      = true := by
  decide

/-- C10 (amended): on a first cycle `getLastIndexedDate` returns null and the
cutoff predicate reduces to `Date.parse(stopDate) < -300000`, which is false
for every execution whose parsed stop date is at least -300000 epoch-ms
(every instant from 1969-12-31T23:55:00Z on, hence every realistic stop date)
and false when the stop date is absent or unparseable (NaN comparisons are
false); for pages of such executions, the overlap stop condition never
fires. -/
theorem c10_first_cycle_no_cutoff :
    getLastIndexedDate ⟨[]⟩ = none ∧
    (∀ (e : Execution) (s : Int), e.stopDate = some s → -300000 ≤ s →
      executionBeforeLastIndexed none e = false) ∧
    (∀ e : Execution, e.stopDate = none →
      executionBeforeLastIndexed none e = false) ∧
    (∀ execs : List Execution,
      (∀ e ∈ execs, ∀ s : Int, e.stopDate = some s → -300000 ≤ s) →
      execs.filter (fun e => executionBeforeLastIndexed none e) = []) := by
  refine ⟨rfl, ?_, ?_, ?_⟩
  · intro e s hs hge
    simp only [executionBeforeLastIndexed, hs, jsNullToZero, LAST_INDEXED_THRESHOLD,
      decide_eq_false_iff_not]
    omega
  · intro e hs
    simp [executionBeforeLastIndexed, hs]
  · intro execs h
    apply filter_before_nil
    intro e he
    cases hsd : e.stopDate with
    | none => simp [executionBeforeLastIndexed, hsd]
    | some s =>
      have hge := h e he s hsd
      simp only [executionBeforeLastIndexed, hsd, jsNullToZero, LAST_INDEXED_THRESHOLD,
        decide_eq_false_iff_not]
      omega

/-- C10 witness: the amended statement instantiated on `eA` (stop date
2000 ≥ -300000) and on the empty meta store. -/
theorem c10_witness :
    eA.stopDate = some 2000 ∧ (-300000 : Int) ≤ 2000 ∧
    executionBeforeLastIndexed none eA = false ∧
    getLastIndexedDate ⟨[]⟩ = none :=
  ⟨rfl, by decide,
   c10_first_cycle_no_cutoff.2.1 eA 2000 rfl (by decide),
   c10_first_cycle_no_cutoff.1⟩
